import Mathlib

/-!
Verification development for the StudentVUE grade exporter (`src/main.py`).

The script is embedded shallowly:
  * `XmlElem` models a parsed XML tree (a BeautifulSoup document);
    `XmlElem.findAll` models `find_all` (all descendants with a given tag,
    in document order) and `XmlElem.getAttr` models `element.get(name)`.
  * `write_data_to_csv` models the flattener of the same name: it returns
    the list of rows the Python function passes to `writer.writerow`.
  * `fetch_gradebook_data` models the per-period fetch as a function of an
    abstract wire outcome (`WireResult`): a transport error, or a response
    with an HTTP status flag and an optional inner result payload.  The
    result distinguishes "returns None", "returns a parsed document" and
    "raises an exception that the function's own handler does not catch".
  * `get_credentials` models the credential provider as a function of the
    two environment values and of the two interactive inputs (which may
    themselves fail, as `input()` does on closed stdin).
  * `main` models the driver: credential acquisition happens before the
    try-block; inside it the output file is opened in write (truncate)
    mode, the header row is written and the four periods are processed.
-/

namespace SvueExport

/-- An XML element: tag name, attributes in document order, children. -/
inductive XmlElem : Type where
  | mk (tag : String) (attrs : List (String × String)) (children : List XmlElem)

def XmlElem.tag : XmlElem → String
  | .mk t _ _ => t

def XmlElem.attrs : XmlElem → List (String × String)
  | .mk _ a _ => a

def XmlElem.children : XmlElem → List XmlElem
  | .mk _ _ c => c

mutual

/-- All descendants of an element, in document (pre-)order: this is the
set of elements BeautifulSoup's `find_all` searches. -/
def XmlElem.descendants : XmlElem → List XmlElem
  | .mk _ _ cs => descList cs

def descList : List XmlElem → List XmlElem
  | [] => []
  | c :: cs => c :: (XmlElem.descendants c ++ descList cs)

end

/-- `soup.find_all(tagName)`: all descendants whose tag matches. -/
def XmlElem.findAll (tagName : String) (e : XmlElem) : List XmlElem :=
  e.descendants.filter (fun d => d.tag == tagName)

/-- `element.get(name)`: the attribute's value, or `none` when absent. -/
def XmlElem.getAttr (e : XmlElem) (name : String) : Option String :=
  (e.attrs.find? (fun p => p.fst == name)).map Prod.snd

/-- One CSV cell: `csv.writer` receives a string or Python `None`. -/
abbrev Cell := Option String

/-- One CSV row, as the list handed to `writer.writerow`. -/
abbrev Row := List Cell

/-- The seven leading fields shared by every row of one Mark, exactly as
built in `write_data_to_csv`: `mark_name, course_title, course_room,
course_staff, course_period, calculated_score, mark_name`. -/
def baseFields (course mark : XmlElem) : Row :=
  [mark.getAttr "MarkName", course.getAttr "Title", course.getAttr "Room",
   course.getAttr "Staff", course.getAttr "Period",
   mark.getAttr "CalculatedScoreString", mark.getAttr "MarkName"]

/-- The seven assignment fields of a row built from one Assignment. -/
def assignmentFields (a : XmlElem) : Row :=
  [a.getAttr "Measure", a.getAttr "Type", a.getAttr "Date",
   a.getAttr "DueDate", a.getAttr "Score", a.getAttr "Points",
   a.getAttr "Notes"]

/-- The seven placeholder fields written for an assignment-less Mark. -/
def naFields : Row :=
  [some "N/A", some "N/A", some "N/A", some "N/A", some "N/A", some "N/A",
   some "N/A"]

/-- The rows `write_data_to_csv` writes for one Mark of one Course:
the body of the `for mark in marks` loop. -/
def markRows (course mark : XmlElem) : List Row :=
  let assignments := XmlElem.findAll "Assignment" mark
  if assignments.isEmpty then
    [baseFields course mark ++ naFields]
  else
    assignments.map (fun a => baseFields course mark ++ assignmentFields a)

/-- `write_data_to_csv`: the rows written for one parsed gradebook
document, in document order of courses, then marks, then assignments. -/
def write_data_to_csv (gradebook_soup : XmlElem) : List Row :=
  (XmlElem.findAll "Course" gradebook_soup).flatMap
    (fun course => (XmlElem.findAll "Mark" course).flatMap (markRows course))

/-- `pat` occurs as a contiguous sublist of `s` (Python's `in` on `str`). -/
def containsSub : List Char → List Char → Bool
  | [], pat => pat.isEmpty
  | s@(_ :: rest), pat => pat.isPrefixOf s || containsSub rest pat

/-- Python's `pat in s` substring test. -/
def strContains (s pat : String) : Bool :=
  containsSub s.toList pat.toList

/-- The inner `ProcessWebServiceRequestResult` payload of a successful
HTTP response: its text (checked for the `"ERROR"` marker) and the
document `BeautifulSoup(text, 'lxml-xml')` parses it to. -/
structure InnerPayload where
  text : String
  parsed : XmlElem

/-- The outcome on the wire of one `session.post`: a transport failure
(a `requests` exception), or a response with an HTTP success flag and,
when the envelope contains a `ProcessWebServiceRequestResult` element,
that element's payload. -/
inductive WireResult where
  | transportError
  | response (statusOk : Bool) (result : Option InnerPayload)

/-- How one call of `fetch_gradebook_data` ends: returns `None`, returns
a parsed document, or raises an exception its `except` clause does not
catch (the `AttributeError` from `soup.find(...).text` when the result
element is missing). -/
inductive FetchResult where
  | noData
  | parsed (doc : XmlElem)
  | raised

/-- `fetch_gradebook_data` for one period, as a function of the wire
outcome.  `raise_for_status` turns a non-success status into a
`RequestException`, which the handler catches and maps to `None`, as it
does a transport failure.  A missing result element raises uncaught.
A payload whose text contains `"ERROR"` maps to `None`; otherwise the
parsed inner document is returned. -/
def fetch_gradebook_data : WireResult → FetchResult
  | .transportError => .noData
  | .response statusOk result =>
    if statusOk then
      match result with
      | none => .raised
      | some payload =>
        if strContains payload.text "ERROR" then .noData
        else .parsed payload.parsed
    else .noData

/-- One interactive read (`input()` / `getpass.getpass()`): the entered
string, or a failure such as `EOFError` on closed stdin. -/
inductive InputResult where
  | ok (s : String)
  | fail

/-- Python truthiness of `os.getenv(...)`: `None` and `""` are falsy. -/
def truthy : Option String → Bool
  | none => false
  | some s => !s.isEmpty

/-- `get_credentials`, as a function of the two environment values and
the two interactive inputs.  Returns the pair together with a flag that
records whether the interactive prompt path ran; `Except.error` models
an input error propagating out of the function. -/
def get_credentials (envU envP : Option String) (inU inP : InputResult) :
    Except Unit ((String × String) × Bool) :=
  if truthy envU && truthy envP then
    .ok ((envU.getD "", envP.getD ""), false)
  else
    match inU with
    | .fail => .error ()
    | .ok u =>
      match inP with
      | .fail => .error ()
      | .ok p => .ok ((u, p), true)

/-- The fixed header row `csv_header` of `main`. -/
def csv_header : Row :=
  [some "Quarter", some "Course Title", some "Room", some "Teacher",
   some "Period", some "Overall Score", some "Mark", some "Assignment",
   some "Type", some "Date Assigned", some "Date Due", some "Score",
   some "Points", some "Notes"]

def REPORTING_PERIODS : Nat := 4

def OUTPUT_FILENAME : String := "grades.csv"

/-- Python `open` modes for the output file: `"w"` truncates, `"a"`
would append to the previous content. -/
inductive FileMode where
  | write
  | append

/-- The content an opened output file starts from, given the previous
content of the file at that path. -/
def openFile : FileMode → List Row → List Row
  | .write, _ => []
  | .append, prev => prev

/-- The period loop of `main`: folds the remaining periods' wire
outcomes into the rows written so far.  The `Bool` is true when an
uncaught exception escaped the loop (remaining periods unprocessed). -/
def runPeriods : List WireResult → List Row → List Row × Bool
  | [], acc => (acc, false)
  | w :: ws, acc =>
    match fetch_gradebook_data w with
    | .raised => (acc, true)
    | .noData => runPeriods ws acc
    | .parsed doc => runPeriods ws (acc ++ write_data_to_csv doc)

/-- How one run of the script ends: the completion message with the
final file content; the generic top-level `except Exception` message
(file keeps the rows written before the exception); the distinct
`except IOError` message; or an uncaught exception, i.e. a raw
traceback. -/
inductive Outcome where
  | complete (csv : List Row)
  | unexpectedErrorMsg (csv : List Row)
  | fileErrorMsg
  | uncaughtFault

/-- `main`: credentials are acquired before the try-block, so an input
error there is an uncaught fault.  Inside the try-block the file at
`OUTPUT_FILENAME` is opened in write (truncate) mode — `openOk = false`
models the `IOError` path — the header is written, and the four periods
run; a raised fetch is caught by the generic top-level handler. -/
def main (envU envP : Option String) (inU inP : InputResult)
    (openOk : Bool) (prev : List Row) (wire : Nat → WireResult) : Outcome :=
  match get_credentials envU envP inU inP with
  | .error _ => .uncaughtFault
  | .ok _ =>
    if openOk then
      let st := runPeriods ((List.range REPORTING_PERIODS).map wire)
        (openFile .write prev ++ [csv_header])
      if st.snd then .unexpectedErrorMsg st.fst else .complete st.fst
    else .fileErrorMsg

mutual

/-- Every attribute value appearing anywhere in an element's subtree
(its own attributes and those of all its descendants). -/
def XmlElem.allAttrValues : XmlElem → List String
  | .mk _ attrs cs => attrs.map Prod.snd ++ attrValuesList cs

def attrValuesList : List XmlElem → List String
  | [] => []
  | c :: cs => XmlElem.allAttrValues c ++ attrValuesList cs

end

/-- A concrete gradebook document with one Course, one Mark, and one
Assignment, matching the spec's own end-to-end example. -/
def sampleAssignment : XmlElem :=
  .mk "Assignment"
    [("Measure", "HW1"), ("Type", "Homework"), ("Score", "10/10"),
     ("Points", "10")] []

def sampleMark : XmlElem :=
  .mk "Mark" [("MarkName", "Q1"), ("CalculatedScoreString", "95%")]
    [.mk "Assignments" [] [sampleAssignment]]

def sampleCourse : XmlElem :=
  .mk "Course"
    [("Title", "Algebra"), ("Room", "12"), ("Staff", "Smith"),
     ("Period", "3")]
    [.mk "Marks" [] [sampleMark]]

def sampleDoc : XmlElem :=
  .mk "Gradebook" [] [.mk "Courses" [] [sampleCourse]]

/-- The single row `write_data_to_csv` produces from `sampleDoc`. -/
def sampleRow : Row :=
  [some "Q1", some "Algebra", some "12", some "Smith", some "3",
   some "95%", some "Q1", some "HW1", some "Homework", none, none,
   some "10/10", some "10", none]

/-- A wire behaviour where period 0's HTTP request succeeds but the
response envelope has no `ProcessWebServiceRequestResult` element (for
example an HTML maintenance page served with status 200), while periods
1–3 answer with valid gradebook data. -/
def c1wire : Nat → WireResult := fun i =>
  if i = 0 then .response true none
  else .response true (some ⟨"<Gradebook/>", sampleDoc⟩)

lemma descendants_mk (t : String) (a : List (String × String))
    (cs : List XmlElem) : (XmlElem.mk t a cs).descendants = descList cs := by
  rw [XmlElem.descendants]

lemma mem_descList (cs : List XmlElem) (d : XmlElem) :
    d ∈ descList cs ↔ ∃ c, c ∈ cs ∧ (d = c ∨ d ∈ c.descendants) := by
  induction cs with
  | nil => simp [descList]
  | cons c cs ih =>
    simp only [descList, List.mem_cons, List.mem_append, ih]
    constructor
    · rintro (rfl | h | ⟨c', hc', hd⟩)
      · exact ⟨d, Or.inl rfl, Or.inl rfl⟩
      · exact ⟨c, Or.inl rfl, Or.inr h⟩
      · exact ⟨c', Or.inr hc', hd⟩
    · rintro ⟨c', (rfl | hc'), (rfl | hd)⟩
      · exact Or.inl rfl
      · exact Or.inr (Or.inl hd)
      · exact Or.inr (Or.inr ⟨d, hc', Or.inl rfl⟩)
      · exact Or.inr (Or.inr ⟨c', hc', Or.inr hd⟩)

lemma mem_attrValuesList {cs : List XmlElem} {c : XmlElem} {v : String}
    (hc : c ∈ cs) (hv : v ∈ c.allAttrValues) : v ∈ attrValuesList cs := by
  induction cs with
  | nil => cases hc
  | cons c' cs ih =>
    rw [attrValuesList, List.mem_append]
    rcases List.mem_cons.1 hc with h | h
    · exact Or.inl (h ▸ hv)
    · exact Or.inr (ih h)

lemma mem_allAttrValues_of_attr {e : XmlElem} {v : String}
    (h : v ∈ e.attrs.map Prod.snd) : v ∈ e.allAttrValues := by
  cases e with
  | mk t a cs =>
    rw [XmlElem.allAttrValues, List.mem_append]
    exact Or.inl h

lemma allAttrValues_sub_aux : ∀ (n : Nat) (root : XmlElem),
    sizeOf root ≤ n → ∀ d ∈ root.descendants, ∀ v ∈ d.allAttrValues,
    v ∈ root.allAttrValues := by
  intro n
  induction n with
  | zero =>
    intro root hsize
    cases root with
    | mk t a cs => simp at hsize
  | succ n ih =>
    intro root hsize d hd v hv
    cases root with
    | mk t a cs =>
      rw [descendants_mk] at hd
      obtain ⟨c, hc, hdc⟩ := (mem_descList cs d).1 hd
      have hmem : v ∈ c.allAttrValues := by
        rcases hdc with rfl | hdesc
        · exact hv
        · have hc1 : sizeOf c < sizeOf cs := List.sizeOf_lt_of_mem hc
          have hc2 : sizeOf (XmlElem.mk t a cs) =
              1 + sizeOf t + sizeOf a + sizeOf cs := by simp
          exact ih c (by omega) d hdesc v hv
      rw [XmlElem.allAttrValues, List.mem_append]
      exact Or.inr (mem_attrValuesList hc hmem)

/-- Any attribute value of a descendant is an attribute value of the
whole subtree. -/
lemma allAttrValues_sub {root d : XmlElem} (hd : d ∈ root.descendants)
    {v : String} (hv : v ∈ d.allAttrValues) : v ∈ root.allAttrValues :=
  allAttrValues_sub_aux (sizeOf root) root le_rfl d hd v hv

lemma mem_descendants_of_findAll {tagName : String} {e d : XmlElem}
    (h : d ∈ XmlElem.findAll tagName e) : d ∈ e.descendants :=
  List.mem_of_mem_filter h

lemma getAttr_some_mem {e : XmlElem} {n v : String}
    (h : e.getAttr n = some v) : v ∈ e.attrs.map Prod.snd := by
  rw [XmlElem.getAttr] at h
  cases hf : e.attrs.find? (fun p => p.fst == n) with
  | none => rw [hf] at h; cases h
  | some p =>
    rw [hf] at h
    simp only [Option.map_some'] at h
    exact List.mem_map.2 ⟨p, List.mem_of_find?_eq_some hf, by simpa using h⟩

lemma getAttr_none_of_attrs_nil {e : XmlElem} (h : e.attrs = [])
    (n : String) : e.getAttr n = none := by
  rw [XmlElem.getAttr, h]
  rfl

/-- A run all of whose remaining fetches return `None` writes nothing
further and finishes the loop normally. -/
lemma runPeriods_all_noData : ∀ (ws : List WireResult) (acc : List Row),
    (∀ w ∈ ws, fetch_gradebook_data w = .noData) →
    runPeriods ws acc = (acc, false) := by
  intro ws
  induction ws with
  | nil => intro acc _; rfl
  | cons w ws ih =>
    intro acc h
    have hw : fetch_gradebook_data w = .noData :=
      h w (List.mem_cons_self w ws)
    rw [runPeriods, hw]
    exact ih acc (fun w' hw' => h w' (List.mem_cons_of_mem w hw'))

/-- The period loop only ever appends to the rows already written. -/
lemma runPeriods_fst_append : ∀ (ws : List WireResult) (acc : List Row),
    ∃ extra, (runPeriods ws acc).fst = acc ++ extra := by
  intro ws
  induction ws with
  | nil => intro acc; exact ⟨[], by simp [runPeriods]⟩
  | cons w ws ih =>
    intro acc
    rw [runPeriods]
    cases hf : fetch_gradebook_data w with
    | raised => exact ⟨[], by simp⟩
    | noData => exact ih acc
    | parsed doc =>
      obtain ⟨extra, hextra⟩ := ih (acc ++ write_data_to_csv doc)
      exact ⟨write_data_to_csv doc ++ extra, by
        rw [hextra, List.append_assoc]⟩

/-- Claim C2: in every parsed gradebook document, a Mark element that
contains zero Assignment elements produces exactly one output row, and
in that 14-field row the seven assignment-specific fields (Assignment,
Type, Date Assigned, Date Due, Score, Points, Notes — positions 7–13)
all equal the placeholder value. -/
theorem c2_empty_mark_single_placeholder_row (course mark : XmlElem)
    (h : XmlElem.findAll "Assignment" mark = []) :
    markRows course mark = [baseFields course mark ++ naFields] ∧
    (markRows course mark).length = 1 ∧
    ∀ r ∈ markRows course mark, r.length = 14 ∧ r.drop 7 = naFields := by
  have hm : markRows course mark = [baseFields course mark ++ naFields] := by
    simp [markRows, h]
  refine ⟨hm, by rw [hm]; rfl, ?_⟩
  intro r hr
  rw [hm, List.mem_singleton] at hr
  subst hr
  exact ⟨rfl, rfl⟩

/-- Witness for C2 at a concrete assignment-less Mark. -/
theorem c2_witness :
    (markRows sampleCourse (XmlElem.mk "Mark" [("MarkName", "Q2")] [])).length
      = 1 :=
  (c2_empty_mark_single_placeholder_row sampleCourse
    (XmlElem.mk "Mark" [("MarkName", "Q2")] []) rfl).2.1

/-- Claim C3: in every parsed gradebook document, a Mark containing
N ≥ 1 Assignment elements produces exactly N rows, one per Assignment
in document order; each row is the Mark's shared seven-field prefix
(course title, room, staff, period and the mark's name and calculated
score) followed by that Assignment's seven fields, so rows differ only
in the assignment fields and no row spans two Marks or two Courses. -/
theorem c3_one_row_per_assignment (course mark : XmlElem)
    (h : XmlElem.findAll "Assignment" mark ≠ []) :
    markRows course mark =
      (XmlElem.findAll "Assignment" mark).map
        (fun a => baseFields course mark ++ assignmentFields a) ∧
    (markRows course mark).length =
      (XmlElem.findAll "Assignment" mark).length ∧
    ∀ r ∈ markRows course mark, r.take 7 = baseFields course mark := by
  have hne : (XmlElem.findAll "Assignment" mark).isEmpty = false := by
    cases hl : XmlElem.findAll "Assignment" mark with
    | nil => exact absurd hl h
    | cons a l => rfl
  have hm : markRows course mark =
      (XmlElem.findAll "Assignment" mark).map
        (fun a => baseFields course mark ++ assignmentFields a) := by
    simp [markRows, hne]
  refine ⟨hm, by rw [hm, List.length_map], ?_⟩
  intro r hr
  rw [hm] at hr
  obtain ⟨a, _, rfl⟩ := List.mem_map.1 hr
  rfl

/-- Witness for C3 at a concrete Mark with one Assignment. -/
theorem c3_witness :
    (markRows sampleCourse sampleMark).length =
      (XmlElem.findAll "Assignment" sampleMark).length :=
  (c3_one_row_per_assignment sampleCourse sampleMark (by
    simp [show XmlElem.findAll "Assignment" sampleMark = [sampleAssignment]
      from rfl])).2.1

/-- Claim C9: the placeholder written into all seven assignment-specific
fields of the single row of an assignment-less Mark is the literal
string "N/A". -/
theorem c9_placeholder_is_na_literal (course mark : XmlElem)
    (h : XmlElem.findAll "Assignment" mark = []) :
    markRows course mark =
      [baseFields course mark ++
        [some "N/A", some "N/A", some "N/A", some "N/A", some "N/A",
         some "N/A", some "N/A"]] := by
  simp [markRows, h, naFields]

/-- Witness for C9 at a concrete attribute-less Course and Mark. -/
theorem c9_witness :
    markRows (XmlElem.mk "Course" [] []) (XmlElem.mk "Mark" [] []) =
      [baseFields (XmlElem.mk "Course" [] []) (XmlElem.mk "Mark" [] []) ++
        [some "N/A", some "N/A", some "N/A", some "N/A", some "N/A",
         some "N/A", some "N/A"]] :=
  c9_placeholder_is_na_literal (XmlElem.mk "Course" [] [])
    (XmlElem.mk "Mark" [] []) rfl

/-- Claim C4: when the HTTP request for a period succeeds but the
extracted inner payload's text contains the substring "ERROR" anywhere,
the fetch returns the no-data indicator — whatever document the rest of
the payload parses to — and that period contributes zero rows to the
run.  The check is the plain substring test `strContains`. -/
theorem c4_error_marker_no_data (p : InnerPayload) (ws : List WireResult)
    (acc : List Row) (h : strContains p.text "ERROR" = true) :
    fetch_gradebook_data (.response true (some p)) = .noData ∧
    runPeriods (.response true (some p) :: ws) acc = runPeriods ws acc := by
  have hf : fetch_gradebook_data (.response true (some p)) = .noData := by
    simp [fetch_gradebook_data, h]
  exact ⟨hf, by simp [runPeriods, hf]⟩

/-- Witness for C4 at a concrete payload whose text contains "ERROR"
but whose parse is a perfectly well-formed gradebook document. -/
theorem c4_witness :
    fetch_gradebook_data
      (.response true (some ⟨"SOAP ERROR 403", sampleDoc⟩)) = .noData ∧
    runPeriods [.response true (some ⟨"SOAP ERROR 403", sampleDoc⟩)] [] =
      runPeriods [] [] :=
  c4_error_marker_no_data ⟨"SOAP ERROR 403", sampleDoc⟩ [] [] rfl

/-- Claim C5: when both configured credential values are present and
non-empty (Python-truthy), the credential provider returns exactly that
pair with the prompt path never invoked — the interactive inputs are
irrelevant, even failing ones; when either value is absent or empty, it
prompts interactively for both. -/
theorem c5_env_credentials_skip_prompt (envU envP : Option String)
    (inU inP : InputResult) :
    ((truthy envU && truthy envP) = true →
      get_credentials envU envP inU inP =
        .ok ((envU.getD "", envP.getD ""), false)) ∧
    (∀ u p, inU = .ok u → inP = .ok p →
      (truthy envU && truthy envP) = false →
      get_credentials envU envP inU inP = .ok ((u, p), true)) := by
  constructor
  · intro h
    simp [get_credentials, h]
  · intro u p hu hp h
    subst hu
    subst hp
    simp [get_credentials, h]

/-- Witness for C5: configured credentials returned with the prompt
path unused (even with failing interactive inputs), and the prompt pair
returned when a configured value is missing. -/
theorem c5_witness :
    get_credentials (some "user") (some "pw") .fail .fail =
      .ok (("user", "pw"), false) ∧
    get_credentials (some "user") none (.ok "u2") (.ok "p2") =
      .ok (("u2", "p2"), true) :=
  ⟨(c5_env_credentials_skip_prompt (some "user") (some "pw") .fail .fail).1
      rfl,
   (c5_env_credentials_skip_prompt (some "user") none (.ok "u2")
      (.ok "p2")).2 "u2" "p2" rfl rfl rfl⟩

/-- Claim C6: for every run reaching the export phase, the output file
is opened in overwrite mode (it starts empty whatever was there
before), the first row of the resulting CSV is the fixed 14-column
header in the exact documented order, and a run in which all four
period fetches fail still produces a CSV holding only that header row,
with the process reporting completion. -/
theorem c6_header_overwrite_all_fail_completes
    (envU envP : Option String) (inU inP : InputResult) (prev : List Row)
    (wire : Nat → WireResult)
    (hcred : ∃ c, get_credentials envU envP inU inP = .ok c) :
    openFile FileMode.write prev = [] ∧
    csv_header =
      [some "Quarter", some "Course Title", some "Room", some "Teacher",
       some "Period", some "Overall Score", some "Mark", some "Assignment",
       some "Type", some "Date Assigned", some "Date Due", some "Score",
       some "Points", some "Notes"] ∧
    (∀ rows, main envU envP inU inP true prev wire = .complete rows →
      rows.head? = some csv_header) ∧
    (∀ rows,
      main envU envP inU inP true prev wire = .unexpectedErrorMsg rows →
      rows.head? = some csv_header) ∧
    ((∀ i, i < REPORTING_PERIODS →
        fetch_gradebook_data (wire i) = .noData) →
      main envU envP inU inP true prev wire = .complete [csv_header]) := by
  obtain ⟨c, hc⟩ := hcred
  obtain ⟨extra, hextra⟩ := runPeriods_fst_append
    ((List.range REPORTING_PERIODS).map wire) [csv_header]
  refine ⟨rfl, rfl, ?_, ?_, ?_⟩
  · intro rows h
    simp only [main, hc, openFile, List.nil_append, if_true] at h
    rcases hsnd : (runPeriods ((List.range REPORTING_PERIODS).map wire)
        [csv_header]).snd with _ | _
    · rw [if_neg (by rw [hsnd]; exact Bool.false_ne_true)] at h
      cases h
      rw [hextra]
      rfl
    · rw [if_pos (by rw [hsnd])] at h
      cases h
  · intro rows h
    simp only [main, hc, openFile, List.nil_append, if_true] at h
    rcases hsnd : (runPeriods ((List.range REPORTING_PERIODS).map wire)
        [csv_header]).snd with _ | _
    · rw [if_neg (by rw [hsnd]; exact Bool.false_ne_true)] at h
      cases h
    · rw [if_pos (by rw [hsnd])] at h
      cases h
      rw [hextra]
      rfl
  · intro hfail
    have hws : ∀ w ∈ (List.range REPORTING_PERIODS).map wire,
        fetch_gradebook_data w = .noData := by
      intro w hw
      obtain ⟨i, hi, rfl⟩ := List.mem_map.1 hw
      exact hfail i (List.mem_range.1 hi)
    have hrun := runPeriods_all_noData _ [csv_header] hws
    simp [main, hc, openFile, hrun]

/-- Witness for C6: a run with configured credentials, a stale previous
file, and transport failures on all four periods completes with a CSV
holding only the header row. -/
theorem c6_witness :
    main (some "user") (some "pw") .fail .fail true [[some "stale"]]
      (fun _ => WireResult.transportError) = .complete [csv_header] :=
  (c6_header_overwrite_all_fail_completes (some "user") (some "pw")
    .fail .fail [[some "stale"]] (fun _ => WireResult.transportError)
    ⟨(("user", "pw"), false), rfl⟩).2.2.2.2 (fun _ _ => rfl)

/-- Claim C7: the flattener is total with respect to missing
attributes, attribute by attribute: every field of every emitted row is
exactly the `getAttr` lookup of one expected attribute on its source
element (positions 0–6 on the Mark and Course, positions 7–13 on the
row's Assignment, or the placeholder), and `getAttr` of an attribute
name the element lacks is the empty/absent value `none` (rendered as an
empty CSV cell) — so an element missing any one expected attribute, the
others present or not, yields `none` in exactly the corresponding field
and flattening still produces its well-formed 14-field rows rather than
an error. -/
theorem c7_missing_attribute_gives_empty_field (course mark : XmlElem) :
    (∀ (e : XmlElem) (name : String), name ∉ e.attrs.map Prod.fst →
      e.getAttr name = none) ∧
    ∀ r ∈ markRows course mark,
      r.length = 14 ∧
      r.get? 0 = some (mark.getAttr "MarkName") ∧
      r.get? 1 = some (course.getAttr "Title") ∧
      r.get? 2 = some (course.getAttr "Room") ∧
      r.get? 3 = some (course.getAttr "Staff") ∧
      r.get? 4 = some (course.getAttr "Period") ∧
      r.get? 5 = some (mark.getAttr "CalculatedScoreString") ∧
      r.get? 6 = some (mark.getAttr "MarkName") ∧
      (r.drop 7 = naFields ∨
        ∃ a ∈ XmlElem.findAll "Assignment" mark,
          r.drop 7 = assignmentFields a) := by
  constructor
  · intro e name hname
    rw [XmlElem.getAttr, List.find?_eq_none.2 ?_]
    · rfl
    · intro p hp hbeq
      exact hname (List.mem_map.2 ⟨p, hp, by simpa using hbeq⟩)
  · intro r hr
    cases hl : XmlElem.findAll "Assignment" mark with
    | nil =>
      have hmr : markRows course mark =
          [baseFields course mark ++ naFields] := by
        simp [markRows, hl]
      rw [hmr, List.mem_singleton] at hr
      subst hr
      exact ⟨rfl, rfl, rfl, rfl, rfl, rfl, rfl, rfl, Or.inl rfl⟩
    | cons a0 l =>
      have hne : (XmlElem.findAll "Assignment" mark).isEmpty = false := by
        rw [hl]; rfl
      have hmr : markRows course mark =
          (XmlElem.findAll "Assignment" mark).map
            (fun a => baseFields course mark ++ assignmentFields a) := by
        simp [markRows, hne]
      rw [hmr, List.mem_map] at hr
      obtain ⟨a, haMem, rfl⟩ := hr
      exact ⟨rfl, rfl, rfl, rfl, rfl, rfl, rfl, rfl,
        Or.inr ⟨a, hl ▸ haMem, rfl⟩⟩

/-- Witness for C7 at a mixed-attribute document: the Course has its
Title but no Room, the Mark has a calculated score but no MarkName —
the missing attributes alone come out as the absent value in their
fields. -/
theorem c7_witness :
    (XmlElem.mk "Course" [("Title", "Algebra")] []).getAttr "Room" = none ∧
    ∀ r ∈ markRows (XmlElem.mk "Course" [("Title", "Algebra")] [])
        (XmlElem.mk "Mark" [("CalculatedScoreString", "88%")]
          [XmlElem.mk "Assignment" [("Measure", "HW1")] []]),
      r.get? 0 =
        some ((XmlElem.mk "Mark" [("CalculatedScoreString", "88%")]
          [XmlElem.mk "Assignment" [("Measure", "HW1")] []]).getAttr
            "MarkName") ∧
      r.get? 2 =
        some ((XmlElem.mk "Course" [("Title", "Algebra")] []).getAttr
          "Room") :=
  ⟨(c7_missing_attribute_gives_empty_field
      (XmlElem.mk "Course" [("Title", "Algebra")] [])
      (XmlElem.mk "Mark" [("CalculatedScoreString", "88%")]
        [XmlElem.mk "Assignment" [("Measure", "HW1")] []])).1 _ "Room"
      (by decide),
   fun r hr =>
    ⟨((c7_missing_attribute_gives_empty_field _ _).2 r hr).2.1,
     ((c7_missing_attribute_gives_empty_field _ _).2 r hr).2.2.2.1⟩⟩

/-- Counterexample to C8 as stated: with no configured credentials and
a failing interactive input, the run terminates as an uncaught fault (a
raw traceback), because `get_credentials` is called before the
try-block of `main` — so not every error is caught and reported as a
human-readable message. -/
theorem c8_counterexample_credential_fault :
    main none none .fail .fail true []
      (fun _ => WireResult.transportError) = .uncaughtFault := rfl

/-- Claim C8 (amended): every error raised after credential acquisition
succeeds is caught and reported as a human-readable message — output
sink failures by the distinct file-error message, anything else by the
generic top-level handler — and such a run never terminates with a raw
fault trace; a credential-input failure, however, happens before the
top-level handler and is not caught. -/
theorem c8_errors_after_credentials_caught (envU envP : Option String)
    (inU inP : InputResult) (openOk : Bool) (prev : List Row)
    (wire : Nat → WireResult)
    (hcred : ∃ c, get_credentials envU envP inU inP = .ok c) :
    main envU envP inU inP openOk prev wire ≠ .uncaughtFault := by
  obtain ⟨c, hc⟩ := hcred
  simp only [main, hc]
  cases openOk with
  | false => simp
  | true =>
    simp only [if_true]
    split <;> simp

/-- Witness for the amended C8 at a concrete run whose credentials come
from the configuration. -/
theorem c8_witness :
    main (some "user") (some "pw") .fail .fail true []
      (fun _ => WireResult.transportError) ≠ .uncaughtFault :=
  c8_errors_after_credentials_caught (some "user") (some "pw") .fail .fail
    true [] (fun _ => WireResult.transportError)
    ⟨(("user", "pw"), false), rfl⟩

/-- Claim C1, at the failing input: when the period-0 response arrives
with a success status but no `ProcessWebServiceRequestResult` element,
the fetch does not return the no-data indicator — it raises (the
`AttributeError` of `.find(...).text`, which the handler for
`requests.exceptions.RequestException` does not catch) — and the whole
run aborts into the generic top-level handler with only the header
written, even though periods 1–3 would have delivered flattenable
data. -/
theorem c1_missing_result_element_aborts_run :
    fetch_gradebook_data (WireResult.response true none) = .raised ∧
    fetch_gradebook_data (c1wire 1) = .parsed sampleDoc ∧
    fetch_gradebook_data (c1wire 2) = .parsed sampleDoc ∧
    fetch_gradebook_data (c1wire 3) = .parsed sampleDoc ∧
    write_data_to_csv sampleDoc = [sampleRow] ∧
    main (some "user") (some "pw") .fail .fail true [] c1wire =
      .unexpectedErrorMsg [csv_header] :=
  ⟨rfl, rfl, rfl, rfl, rfl, rfl⟩

/-- Claim C10: in every data row the first field (under "Quarter")
equals the seventh field (under "Mark") — both are the Mark's name —
and every cell of every row is either absent, the "N/A" placeholder, or
an attribute value drawn from the fetched document itself: the
reporting period index of the fetch is not an input of the flattener
and never reaches a row. -/
theorem c10_quarter_equals_mark_and_cell_provenance (doc : XmlElem)
    (r : Row) (hr : r ∈ write_data_to_csv doc) :
    r.get? 0 = r.get? 6 ∧
    ∀ c ∈ r, c = none ∨ c = some "N/A" ∨
      ∃ v, v ∈ doc.allAttrValues ∧ c = some v := by
  rw [write_data_to_csv] at hr
  obtain ⟨course, hcourse, hr⟩ := List.mem_flatMap.1 hr
  obtain ⟨mark, hmark, hr⟩ := List.mem_flatMap.1 hr
  have hcourseSub : ∀ v, v ∈ course.allAttrValues → v ∈ doc.allAttrValues :=
    fun v hv => allAttrValues_sub (mem_descendants_of_findAll hcourse) hv
  have hmarkSub : ∀ v, v ∈ mark.allAttrValues → v ∈ doc.allAttrValues :=
    fun v hv =>
      hcourseSub v (allAttrValues_sub (mem_descendants_of_findAll hmark) hv)
  have hcell : ∀ (e : XmlElem),
      (∀ v, v ∈ e.allAttrValues → v ∈ doc.allAttrValues) → ∀ (n : String),
      e.getAttr n = none ∨ e.getAttr n = some "N/A" ∨
        ∃ v, v ∈ doc.allAttrValues ∧ e.getAttr n = some v := by
    intro e hsub n
    cases hg : e.getAttr n with
    | none => exact Or.inl rfl
    | some v =>
      exact Or.inr (Or.inr
        ⟨v, hsub v (mem_allAttrValues_of_attr (getAttr_some_mem hg)), rfl⟩)
  have hbasecells : ∀ c ∈ baseFields course mark,
      c = none ∨ c = some "N/A" ∨
        ∃ v, v ∈ doc.allAttrValues ∧ c = some v := by
    intro c hcmem
    simp only [baseFields, List.mem_cons, List.not_mem_nil, or_false]
      at hcmem
    rcases hcmem with rfl | rfl | rfl | rfl | rfl | rfl | rfl
    · exact hcell mark hmarkSub "MarkName"
    · exact hcell course hcourseSub "Title"
    · exact hcell course hcourseSub "Room"
    · exact hcell course hcourseSub "Staff"
    · exact hcell course hcourseSub "Period"
    · exact hcell mark hmarkSub "CalculatedScoreString"
    · exact hcell mark hmarkSub "MarkName"
  cases hl : XmlElem.findAll "Assignment" mark with
  | nil =>
    have hmr : markRows course mark =
        [baseFields course mark ++ naFields] := by
      simp [markRows, hl]
    rw [hmr, List.mem_singleton] at hr
    subst hr
    refine ⟨rfl, ?_⟩
    intro c hcmem
    rcases List.mem_append.1 hcmem with h | h
    · exact hbasecells c h
    · simp only [naFields, List.mem_cons, List.not_mem_nil, or_false] at h
      rcases h with rfl | rfl | rfl | rfl | rfl | rfl | rfl <;>
        exact Or.inr (Or.inl rfl)
  | cons a0 l =>
    have hne : (XmlElem.findAll "Assignment" mark).isEmpty = false := by
      rw [hl]; rfl
    have hmr : markRows course mark =
        (XmlElem.findAll "Assignment" mark).map
          (fun a => baseFields course mark ++ assignmentFields a) := by
      simp [markRows, hne]
    rw [hmr, List.mem_map] at hr
    obtain ⟨a, haMem, rfl⟩ := hr
    have haSub : ∀ v, v ∈ a.allAttrValues → v ∈ doc.allAttrValues := by
      intro v hv
      exact hmarkSub v
        (allAttrValues_sub (mem_descendants_of_findAll haMem) hv)
    refine ⟨rfl, ?_⟩
    intro c hcmem
    rcases List.mem_append.1 hcmem with h | h
    · exact hbasecells c h
    · simp only [assignmentFields, List.mem_cons, List.not_mem_nil,
        or_false] at h
      rcases h with rfl | rfl | rfl | rfl | rfl | rfl | rfl
      · exact hcell a haSub "Measure"
      · exact hcell a haSub "Type"
      · exact hcell a haSub "Date"
      · exact hcell a haSub "DueDate"
      · exact hcell a haSub "Score"
      · exact hcell a haSub "Points"
      · exact hcell a haSub "Notes"

/-- Witness for C10 at the sample document's single row. -/
theorem c10_witness :
    sampleRow ∈ write_data_to_csv sampleDoc ∧
    (sampleRow.get? 0 = sampleRow.get? 6 ∧
      ∀ c ∈ sampleRow, c = none ∨ c = some "N/A" ∨
        ∃ v, v ∈ sampleDoc.allAttrValues ∧ c = some v) :=
  ⟨by rw [show write_data_to_csv sampleDoc = [sampleRow] from rfl]
      exact List.mem_singleton.2 rfl,
   c10_quarter_equals_mark_and_cell_provenance sampleDoc sampleRow
    (by rw [show write_data_to_csv sampleDoc = [sampleRow] from rfl]
        exact List.mem_singleton.2 rfl)⟩

end SvueExport
